import Mathlib

/-
Verification of the client-side plan state manager of the travel-planning
application (source: the React component in the main TSX file of the repository).
The definitions below are a shallow embedding of the data model and the
operations of that component: pure functions become Lean functions, the
filter/pagination machinery becomes an explicit event-driven state machine,
and JavaScript number coercion is modelled by a decimal-numeral parser
returning an Option (none plays the role of NaN).
-/

namespace TravelPlanner

/-! ### Data model (mirrors the TS interfaces) -/

structure Flight where
  airline : String
  stops : Nat
  price : ℚ
  «class» : String
deriving DecidableEq

structure Location where
  city : String
  lat : ℚ
  lng : ℚ
deriving DecidableEq

structure ChecklistItem where
  task : String
  details : String
  completed : Bool
deriving DecidableEq

structure PackingItem where
  item : String
  quantity : Int
  packed : Bool
deriving DecidableEq

structure PackingCategory where
  category : String
  items : List PackingItem
deriving DecidableEq

structure WeatherInfo where
  destination : String
  avg_temp_celsius : ℚ
  forecast_summary : String
deriving DecidableEq

structure FoodRecommendation where
  name : String
  description : String
deriving DecidableEq

structure DailyPlanItem where
  day : Int
  activity : String
deriving DecidableEq

/-- The TS field `imageUrl` of type string, "loading", null or undefined: a JS value that is
either absent (undefined), null, or a string ("loading" is just a string). -/
inductive ImageUrl where
  | undef : ImageUrl
  | nullv : ImageUrl
  | str : String → ImageUrl
deriving DecidableEq

structure ItineraryDestination where
  destination_name : String
  destination_summary : String
  daily_plan : List DailyPlanItem
  transport_tips : String
  safety_tips : String
  food_recommendations : List FoodRecommendation
  imageUrl : ImageUrl
deriving DecidableEq

structure CostDetails where
  accommodation : ℚ
  food : ℚ
  activities : ℚ
  transport : ℚ
  total_without_flights : ℚ
deriving DecidableEq

structure Plan where
  itinerary : List ItineraryDestination
  costs : CostDetails
  checklist : List ChecklistItem
  flights : List Flight
  locations : List Location
  weather : List WeatherInfo
  packing_list : List PackingCategory
deriving DecidableEq

/-- A JS value that is either a number or a string (TS `number | string`;
form inputs turn numeric fields into strings). -/
inductive NumOrStr where
  | num : Int → NumOrStr
  | str : String → NumOrStr
deriving DecidableEq

structure TripDetails where
  prediction : NumOrStr
  type : String
  origin : String
  destinations : List String
  adults : NumOrStr
  children : NumOrStr
  startDate : String
  endDate : String
  «class» : String
  stopover : Bool
  tripType : String
deriving DecidableEq

structure HistoryItem where
  id : String
  title : String
  details : TripDetails
deriving DecidableEq

structure Filters where
  airline : String
  stops : String
  maxPrice : String
deriving DecidableEq

/-! ### JavaScript number coercion

`Number(s)` on a string trims whitespace, maps the empty remainder to 0 and
otherwise parses a signed decimal numeral; anything else is NaN, modelled
here as `none`.  (Hexadecimal and exponent forms, which no claim touches,
are conservatively mapped to `none`.) -/

def isDigitChar (c : Char) : Bool := '0' ≤ c && c ≤ '9'

def digitVal (c : Char) : ℕ := c.toNat - '0'.toNat

def digitsVal (cs : List Char) : ℕ := cs.foldl (fun a c => 10 * a + digitVal c) 0

def jsNumber (s : String) : Option ℚ :=
  let cs0 := s.toList.dropWhile (fun c => c.isWhitespace)
  let cs := (cs0.reverse.dropWhile (fun c => c.isWhitespace)).reverse
  if cs.isEmpty then some 0
  else
    let neg : Bool :=
      match cs with
      | '-' :: _ => true
      | _ => false
    let body : List Char :=
      match cs with
      | '-' :: r => r
      | '+' :: r => r
      | r => r
    let ip := body.takeWhile (fun c => c ≠ '.')
    let rest := body.dropWhile (fun c => c ≠ '.')
    let mag : Option ℚ :=
      match rest with
      | [] =>
        if !ip.isEmpty && ip.all isDigitChar then some ((digitsVal ip : ℚ))
        else none
      | _ :: fp =>
        if !(ip ++ fp).isEmpty && (ip ++ fp).all isDigitChar
            && fp.all (fun c => c ≠ '.') then
          some ((digitsVal ip : ℚ) + (digitsVal fp : ℚ) / (10 : ℚ) ^ fp.length)
        else none
    if neg then mag.map (fun m => -m) else mag

/-- JS falsiness of a string: only the empty string is falsy
(the source guards with `!filters.maxPrice`). -/
def jsStrFalsy (s : String) : Bool := s == ""

/-- `Number(p) <= Number(s)` for a numeric `p` and string `s`: any comparison
against NaN is false. -/
def jsNumLe (p : ℚ) (s : String) : Bool :=
  match jsNumber s with
  | some m => decide (p ≤ m)
  | none => false

/-! ### Flight Catalog & Filter Engine (source: `filteredFlights` useMemo) -/

/-- The conjunctive predicate of the source:
`airlineMatch && stopsMatch && priceMatch` with
airlineMatch (wildcard "all" or exact airline match),
stopsMatch (wildcard "all" or the stop count rendered as a string equal to the criterion),
and priceMatch (empty or falsy maxPrice string, or Number-coerced price comparison). -/
def flightPasses (c : Filters) (fl : Flight) : Bool :=
  (c.airline == "all" || fl.airline == c.airline)
  && (c.stops == "all" || toString fl.stops == c.stops)
  && (c.maxPrice == "" || jsStrFalsy c.maxPrice || jsNumLe fl.price c.maxPrice)

def filteredFlights (fls : List Flight) (c : Filters) : List Flight :=
  fls.filter (flightPasses c)

/-- The filter predicate of the claim, following the words of the specification:
price is constrained only when the maximum price parses as a valid positive
number; an empty or malformed maximum-price string constrains nothing. -/
def c1ClaimPred (c : Filters) (fl : Flight) : Bool :=
  (c.airline == "all" || fl.airline == c.airline)
  && (c.stops == "all" || toString fl.stops == c.stops)
  && (match jsNumber c.maxPrice with
      | some m => if 0 < m then decide (fl.price ≤ m) else true
      | none => true)

/-- Price conjunct of the amended claim: the comparison succeeds exactly when
the maximum-price string parses as a number that bounds the price. -/
def priceConjunct (s : String) (p : ℚ) : Prop :=
  match jsNumber s with
  | some m => p ≤ m
  | none => False

instance (s : String) (p : ℚ) : Decidable (priceConjunct s p) :=
  match h : jsNumber s with
  | some m => decidable_of_iff (p ≤ m) (by unfold priceConjunct; rw [h])
  | none => isFalse (by unfold priceConjunct; rw [h]; exact id)

/-- Amended claim predicate: airline exact-match or wildcard; stop count as a
string exact-match or wildcard; price unconstrained for an empty maximum-price
string, otherwise `price ≤ Number(maxPrice)` — so a malformed (NaN) non-empty
maximum price excludes every flight, and a parsed non-positive maximum is
applied as-is. -/
def c1AmendedPred (c : Filters) (fl : Flight) : Prop :=
  (c.airline = "all" ∨ fl.airline = c.airline)
  ∧ (c.stops = "all" ∨ toString fl.stops = c.stops)
  ∧ (c.maxPrice = "" ∨ priceConjunct c.maxPrice fl.price)

instance (c : Filters) (fl : Flight) : Decidable (c1AmendedPred c fl) := by
  unfold c1AmendedPred; infer_instance

/-! ### Pagination / infinite-scroll state machine

State of the flight catalog: the full list (`plan.flights`), the filter
criteria, the displayed prefix, the `isLoadingMore` flag and the pending
page capture of an un-fired 500ms `setTimeout` (the source never clears this
timer).  Events are the discrete suspension points of the source: a filter
change (the reset `useEffect`), a load-more trigger (the
IntersectionObserver callback), the timer firing, and a flight selection. -/

def FLIGHTS_PER_PAGE : ℕ := 10

structure CatalogState where
  flights : List Flight
  filters : Filters
  displayed : List Flight
  isLoadingMore : Bool
  pending : Option (List Flight)
  selectedFlight : Option Flight
deriving DecidableEq

def filteredOf (s : CatalogState) : List Flight := filteredFlights s.flights s.filters

inductive Event where
  | setFilter : Filters → Event
  | trigger : Event
  | fire : Event
  | select : Flight → Event

def isFilterEvent : Event → Bool
  | .setFilter _ => true
  | _ => false

/-- One transition of the catalog.  `setFilter` updates the criteria and the
reset effect replaces `displayed` by the first page of the new filtered list
(pending timer untouched — the source has no clearTimeout).  `trigger` is the
observer callback: ignored while loading, otherwise it captures the next page
of the current filtered list and starts the 500ms delay.  `fire` is that
delay elapsing: the captured page is appended to the current `displayed`
(functional update in the source) and the loading flag clears.  `select`
toggles the structurally-compared selected flight and touches nothing else. -/
def stepE (s : CatalogState) (e : Event) : CatalogState :=
  match e with
  | .setFilter f =>
      { s with filters := f,
               displayed := (filteredFlights s.flights f).take FLIGHTS_PER_PAGE }
  | .trigger =>
      if s.isLoadingMore = false ∧ s.displayed.length < (filteredOf s).length then
        { s with isLoadingMore := true,
                 pending := some (((filteredOf s).drop s.displayed.length).take FLIGHTS_PER_PAGE) }
      else s
  | .fire =>
      match s.pending with
      | some ns => { s with displayed := s.displayed ++ ns,
                            isLoadingMore := false, pending := none }
      | none => s
  | .select fl =>
      { s with selectedFlight := if s.selectedFlight = some fl then none else some fl }

/-- Initial filter state of the component. -/
def defaultFilters : Filters := ⟨"all", "all", ""⟩

/-- Catalog state right after the flights of a plan arrive: the reset effect has
put the first page on screen, nothing is loading. -/
def initState (fl : List Flight) : CatalogState :=
  { flights := fl
    filters := defaultFilters
    displayed := (filteredFlights fl defaultFilters).take FLIGHTS_PER_PAGE
    isLoadingMore := false
    pending := none
    selectedFlight := none }

def run (fl : List Flight) (es : List Event) : CatalogState :=
  es.foldl stepE (initState fl)

/-- An event list is safe from `s` when every filter change happens while no
load-more append is pending. -/
def safeFrom : CatalogState → List Event → Bool
  | _, [] => true
  | s, e :: es => ((!isFilterEvent e) || s.pending.isNone) && safeFrom (stepE s e) es

/-- Inductive invariant of the catalog machine: the displayed list is the
take-prefix of the filtered list of its own length; its length is a multiple
of the page size or the whole filtered list is shown; the loading flag tracks
the pending timer; and a pending capture is exactly the next page of the
current filtered list, scheduled from a full-page boundary. -/
def catalogInv (s : CatalogState) : Prop :=
  s.displayed = (filteredOf s).take s.displayed.length
  ∧ (s.displayed.length % FLIGHTS_PER_PAGE = 0
      ∨ s.displayed.length = (filteredOf s).length)
  ∧ s.isLoadingMore = s.pending.isSome
  ∧ ∀ ns, s.pending = some ns →
      ns = ((filteredOf s).drop s.displayed.length).take FLIGHTS_PER_PAGE
      ∧ s.displayed.length % FLIGHTS_PER_PAGE = 0
      ∧ s.displayed.length < (filteredOf s).length

/-! ### Plan Assembly (source: `planWithChecklistState` in `generatePlan`) -/

structure RawChecklistItem where
  task : String
  details : String
deriving DecidableEq

structure RawPackingItem where
  item : String
  quantity : Int
deriving DecidableEq

structure RawPackingCategory where
  category : String
  items : List RawPackingItem
deriving DecidableEq

structure RawItineraryDestination where
  destination_name : String
  destination_summary : String
  daily_plan : List DailyPlanItem
  transport_tips : String
  safety_tips : String
  food_recommendations : List FoodRecommendation
deriving DecidableEq

/-- The parsed JSON payload: checklist items carry no completed flag, packing
items no packed flag, destinations no imageUrl key, and the packing list may
be absent. -/
structure RawPayload where
  itinerary : List RawItineraryDestination
  costs : CostDetails
  checklist : List RawChecklistItem
  packing_list : Option (List RawPackingCategory)
  flights : List Flight
  locations : List Location
  weather : List WeatherInfo
deriving DecidableEq

/-- A destination as it sits in the assembled plan: all fields copied
verbatim, the imageUrl key absent (undefined). -/
def toDestination (d : RawItineraryDestination) : ItineraryDestination :=
  { destination_name := d.destination_name
    destination_summary := d.destination_summary
    daily_plan := d.daily_plan
    transport_tips := d.transport_tips
    safety_tips := d.safety_tips
    food_recommendations := d.food_recommendations
    imageUrl := ImageUrl.undef }

/-- Assembly: spread of the parsed payload with the checklist completed flags
forced to false, packing packed flags forced to false, and a missing packing
list defaulted to the empty sequence. -/
def assemblePlan (raw : RawPayload) : Plan :=
  { itinerary := raw.itinerary.map toDestination
    costs := raw.costs
    checklist := raw.checklist.map (fun i => ⟨i.task, i.details, false⟩)
    flights := raw.flights
    locations := raw.locations
    weather := raw.weather
    packing_list :=
      ((raw.packing_list.map (List.map (fun cat =>
        (⟨cat.category, cat.items.map (fun it => ⟨it.item, it.quantity, false⟩)⟩
          : PackingCategory)))).getD []) }

/-! ### Image-Fill Controller (source: `generateDestinationImages`) -/

/-- First action of the controller: set the image state of every destination to
the "loading" marker. -/
def markItineraryLoading (p : Plan) : Plan :=
  { p with itinerary := p.itinerary.map (fun d => { d with imageUrl := ImageUrl.str "loading" }) }

/-- Generic update-at-index (the JS in-place write
`updatedItinerary[index].imageUrl = ...` after a shallow array copy). -/
def updAt (f : α → α) : List α → ℕ → List α
  | [], _ => []
  | a :: as, 0 => f a :: as
  | a :: as, n + 1 => a :: updAt f as n

/-- The image URL written for a settled request: a data URL on success with
at least one generated image, the JS null on failure. -/
def resultUrl : Option String → ImageUrl
  | some b => ImageUrl.str ("data:image/jpeg;base64," ++ b)
  | none => ImageUrl.nullv

/-- Application of one settled image result to the current plan state of the
component (the functional `setPlan` in the results loop): if the current plan
is null the update is dropped, otherwise the destination slot at the index of
the request receives the result — the source performs no identity check
between the plan the request was issued for and the current plan. -/
def applyImageResult (prev : Option Plan) (index : ℕ) (res : Option String) : Option Plan :=
  match prev with
  | none => none
  | some p => some { p with itinerary := updAt (fun d => { d with imageUrl := resultUrl res }) p.itinerary index }

/-! ### Interaction/Toggle Tracker (source: `handleChecklistToggle`) -/

/-- Composite state seen by the toggle handler: the current plan and the
saved flag. -/
structure ToggleState where
  plan : Option Plan
  isSaved : Bool
deriving DecidableEq

def flipItem (it : ChecklistItem) : ChecklistItem := { it with completed := !it.completed }

/-- `plan.checklist.map((item, index) => index === toggledIndex ? flip : item)`
with a JS number index (possibly negative, possibly out of range). -/
def toggleChecklist : List ChecklistItem → Int → List ChecklistItem
  | [], _ => []
  | c :: cs, i => (if i = 0 then flipItem c else c) :: toggleChecklist cs (i - 1)

/-- The toggle handler: with no plan it returns early (not even the saved
flag changes); with a plan it replaces the checklist and clears the saved
flag. -/
def handleChecklistToggle (s : ToggleState) (i : Int) : ToggleState :=
  match s.plan with
  | none => s
  | some p => { plan := some { p with checklist := toggleChecklist p.checklist i }
                isSaved := false }

/-- The packing-list toggle handler (source: `handlePackingListToggle`,
shallow copies plus one item write): with a plan present it flips `packed`
of exactly the item at `itemIndex` inside the category at `categoryIndex`,
replaces only the packing list, and clears the saved flag; with no plan it
returns early. -/
def handlePackingListToggle (s : ToggleState) (categoryIndex itemIndex : ℕ) : ToggleState :=
  match s.plan with
  | none => s
  | some p =>
      let newPackingList :=
        updAt
          (fun cat =>
            { cat with
              items := updAt (fun it => { it with packed := !it.packed }) cat.items itemIndex })
          p.packing_list categoryIndex
      { plan := some { p with packing_list := newPackingList }, isSaved := false }

/-! ### History ring (source: the `setSearchHistory` update in `generatePlan`) -/

/-- `[newItem, ...prev.filter(it => stringify(it.details) !== stringify(new.details))].slice(0, 5)`;
stringify-equality of two same-shaped records is structural equality. -/
def appendHistory (prev : List HistoryItem) (newItem : HistoryItem) : List HistoryItem :=
  (newItem :: prev.filter (fun it => !(decide (it.details = newItem.details)))).take 5

/-- History rings producible by the component itself, starting empty. -/
inductive ReachableHistory : List HistoryItem → Prop where
  | nil : ReachableHistory []
  | app : ∀ {h : List HistoryItem} (e : HistoryItem),
      ReachableHistory h → ReachableHistory (appendHistory h e)

/-! ### Persistence Bridge (source: `handleSavePlan` and the load effect) -/

structure StoredSnapshot where
  plan : Plan
  tripDetails : TripDetails
  selectedFlight : Option Flight
deriving DecidableEq

/-- `handleSavePlan`: with a plan present, serialize the composite snapshot
under the fixed key (serialization of these records is faithful, modelled as
the identity). -/
def handleSavePlan (plan : Option Plan) (td : TripDetails) (sel : Option Flight) :
    Option StoredSnapshot :=
  plan.map (fun p => ⟨p, td, sel⟩)

def restoreChecklistItem (it : ChecklistItem) : ChecklistItem :=
  { it with completed := it.completed || false }

def restorePackingCategory (cat : PackingCategory) : PackingCategory :=
  { cat with items := cat.items.map (fun it => { it with packed := it.packed || false }) }

/-- The `planWithCheckedState` normalization of the load effect. -/
def restorePlan (p : Plan) : Plan :=
  { p with checklist := p.checklist.map restoreChecklistItem
           packing_list := p.packing_list.map restorePackingCategory }

/-- The load effect: on a present, well-shaped snapshot it restores the plan
(after the `completed || false` / `packed || false` normalization), the trip
details, and the selected flight (`savedFlight || null`). -/
def loadSavedData (stored : Option StoredSnapshot) :
    Option (Plan × TripDetails × Option Flight) :=
  stored.map (fun d => (restorePlan d.plan, d.tripDetails, d.selectedFlight))

/-! ### Concrete values used by counterexamples and witnesses -/

def fA : Flight := ⟨"A", 0, 100, "Y"⟩

def fB : Flight := ⟨"B", 0, 100, "Y"⟩

def flights11 : List Flight := fB :: List.replicate 10 fA

def onlyB : Filters := ⟨"B", "all", ""⟩

def cAbc : Filters := ⟨"all", "all", "abc"⟩

def cZero : Filters := ⟨"all", "all", "0"⟩

def stops2plus : Filters := ⟨"all", "2", ""⟩

def flight3 : Flight := ⟨"X", 3, 100, "Y"⟩

def flight2 : Flight := ⟨"X", 2, 100, "Y"⟩

/-- The catalog state after: load-more triggered, filter changed to airline B
while the append is pending, pending timer fires. -/
def cexState : CatalogState := run flights11 [Event.trigger, Event.setFilter onlyB, Event.fire]

def costs0 : CostDetails := ⟨0, 0, 0, 0, 0⟩

def destParis : ItineraryDestination :=
  ⟨"Paris", "resumo", [], "dicas", "seguranca", [], ImageUrl.str "loading"⟩

/-- A newer plan that replaced the one whose image request is still
outstanding. -/
def planB : Plan := ⟨[destParis], costs0, [], [], [], [], []⟩

def item0 : ChecklistItem := ⟨"Passaporte", "Verificar validade", false⟩

def planC : Plan := ⟨[], costs0, [item0], [], [], [], []⟩

def rawDest0 : RawItineraryDestination := ⟨"Lisboa", "resumo", [], "dicas", "seguranca", []⟩

def raw0 : RawPayload := ⟨[rawDest0], costs0, [], none, [], [], []⟩

def tdDefault : TripDetails :=
  ⟨NumOrStr.num 2026, "Internacional", "Sao Paulo", ["Lisboa"], NumOrStr.num 2,
    NumOrStr.num 0, "", "", "Economica", false, "Aventura"⟩

def histE : HistoryItem := ⟨"2026-01-01T00:00:00", "Sao Paulo - Lisboa", tdDefault⟩



/-! ### Helper lemmas -/

theorem take_self_len (l : List α) (n : ℕ) : l.take n = l.take (l.take n).length := by
  rw [List.length_take]
  rcases Nat.le_total n l.length with h | h
  · rw [Nat.min_eq_left h]
  · rw [Nat.min_eq_right h, List.take_length, List.take_of_length_le h]

theorem take_min_len (l : List α) (n : ℕ) : l.take n = l.take (min n l.length) := by
  rcases Nat.le_total n l.length with h | h
  · rw [Nat.min_eq_left h]
  · rw [Nat.min_eq_right h, List.take_length, List.take_of_length_le h]

theorem updAt_eq (f : α → α) (l : List α) (i : ℕ) (h : i < l.length) :
    updAt f l i = l.take i ++ [f (l.get ⟨i, h⟩)] ++ l.drop (i + 1) := by
  induction l generalizing i with
  | nil => exact absurd h (Nat.not_lt_zero i)
  | cons a as ih =>
      cases i with
      | zero => simp [updAt]
      | succ n =>
          have h' : n < as.length := Nat.succ_lt_succ_iff.mp h
          simp [updAt, ih n h']

theorem toggleChecklist_out (cl : List ChecklistItem) (i : Int)
    (h : i < 0 ∨ (cl.length : Int) ≤ i) : toggleChecklist cl i = cl := by
  induction cl generalizing i with
  | nil => rfl
  | cons c cs ih =>
      have hne : ¬ i = 0 := by
        rcases h with h | h
        · omega
        · simp only [List.length_cons] at h; omega
      have h' : i - 1 < 0 ∨ (cs.length : Int) ≤ i - 1 := by
        rcases h with h | h
        · exact Or.inl (by omega)
        · right; simp only [List.length_cons] at h; omega
      simp [toggleChecklist, hne, ih (i - 1) h']

theorem toggleChecklist_natCast (cl : List ChecklistItem) (n : ℕ) :
    toggleChecklist cl (n : Int) = updAt flipItem cl n := by
  induction cl generalizing n with
  | nil => rfl
  | cons c cs ih =>
      cases n with
      | zero =>
          simp only [toggleChecklist, updAt, Int.natCast_zero, if_pos rfl]
          exact congrArg₂ _ rfl (toggleChecklist_out cs (0 - 1) (Or.inl (by omega)))
      | succ m =>
          have h0 : ¬ ((m + 1 : ℕ) : Int) = 0 := by omega
          have h1 : ((m + 1 : ℕ) : Int) - 1 = (m : Int) := by push_cast; ring
          simp only [toggleChecklist, updAt, h0, if_false, h1, ih m]

theorem toggleChecklist_involutive (cl : List ChecklistItem) (i : Int) :
    toggleChecklist (toggleChecklist cl i) i = cl := by
  induction cl generalizing i with
  | nil => rfl
  | cons c cs ih =>
      by_cases hi : i = 0
      · subst hi
        simp only [toggleChecklist, if_pos rfl]
        refine congrArg₂ _ ?_ (ih (0 - 1))
        simp [flipItem, Bool.not_not]
      · simp only [toggleChecklist, if_neg hi]
        exact congrArg₂ _ rfl (ih (i - 1))

theorem restoreChecklistItem_eq (it : ChecklistItem) : restoreChecklistItem it = it := by
  simp [restoreChecklistItem]

theorem restorePackingCategory_eq (cat : PackingCategory) :
    restorePackingCategory cat = cat := by
  simp [restorePackingCategory]

theorem restorePlan_eq (p : Plan) : restorePlan p = p := by
  have h1 : p.checklist.map restoreChecklistItem = p.checklist :=
    List.map_id'' restoreChecklistItem_eq p.checklist
  have h2 : p.packing_list.map restorePackingCategory = p.packing_list :=
    List.map_id'' restorePackingCategory_eq p.packing_list
  simp [restorePlan, h1, h2]


theorem flightPasses_eq_amended (c : Filters) (fl : Flight) :
    flightPasses c fl = decide (c1AmendedPred c fl) := by
  rw [Bool.eq_iff_iff]
  cases h : jsNumber c.maxPrice with
  | none =>
      simp only [flightPasses, c1AmendedPred, jsNumLe, jsStrFalsy, priceConjunct, h,
        Bool.and_eq_true, Bool.or_eq_true, beq_iff_eq, decide_eq_true_eq]
      tauto
  | some m =>
      simp only [flightPasses, c1AmendedPred, jsNumLe, jsStrFalsy, priceConjunct, h,
        Bool.and_eq_true, Bool.or_eq_true, beq_iff_eq, decide_eq_true_eq]
      tauto

theorem stepE_flights (s : CatalogState) (e : Event) : (stepE s e).flights = s.flights := by
  cases e with
  | setFilter f => rfl
  | trigger =>
      simp only [stepE]
      split <;> rfl
  | fire =>
      cases hp : s.pending <;> simp [stepE, hp]
  | select fl => rfl

theorem foldl_flights (es : List Event) (s : CatalogState) :
    (es.foldl stepE s).flights = s.flights := by
  induction es generalizing s with
  | nil => rfl
  | cons e es ih => rw [List.foldl_cons, ih, stepE_flights]

theorem catalogInv_initState (fl : List Flight) : catalogInv (initState fl) := by
  unfold catalogInv initState filteredOf
  refine ⟨take_self_len _ _, ?_, rfl, ?_⟩
  · rw [List.length_take]
    rcases Nat.le_total FLIGHTS_PER_PAGE (filteredFlights fl defaultFilters).length with h | h
    · rw [Nat.min_eq_left h]; exact Or.inl rfl
    · rw [Nat.min_eq_right h]; exact Or.inr rfl
  · intro ns hns; cases hns

theorem catalogInv_stepE (s : CatalogState) (e : Event)
    (hinv : catalogInv s) (hsafe : isFilterEvent e = true → s.pending = none) :
    catalogInv (stepE s e) := by
  obtain ⟨hA, hB, hC, hD⟩ := hinv
  cases e with
  | setFilter f =>
      have hp : s.pending = none := hsafe rfl
      refine ⟨take_self_len _ _, ?_, ?_, ?_⟩
      · show ((filteredFlights s.flights f).take FLIGHTS_PER_PAGE).length % FLIGHTS_PER_PAGE = 0
          ∨ ((filteredFlights s.flights f).take FLIGHTS_PER_PAGE).length
            = (filteredFlights s.flights f).length
        rw [List.length_take]
        rcases Nat.le_total FLIGHTS_PER_PAGE (filteredFlights s.flights f).length with h | h
        · rw [Nat.min_eq_left h]; exact Or.inl rfl
        · rw [Nat.min_eq_right h]; exact Or.inr rfl
      · exact hC
      · intro ns hns
        rw [show (stepE s (Event.setFilter f)).pending = s.pending from rfl, hp] at hns
        cases hns
  | trigger =>
      simp only [stepE]
      split
      · next hg =>
          have hmod : s.displayed.length % FLIGHTS_PER_PAGE = 0 := by
            rcases hB with h | h
            · exact h
            · exact absurd (h ▸ hg.2) (lt_irrefl _)
          refine ⟨hA, hB, rfl, ?_⟩
          intro ns hns
          obtain rfl : ((filteredOf s).drop s.displayed.length).take FLIGHTS_PER_PAGE = ns :=
            Option.some.inj hns
          exact ⟨rfl, hmod, hg.2⟩
      · exact ⟨hA, hB, hC, hD⟩
  | fire =>
      cases hp : s.pending with
      | none => simp only [stepE, hp]; exact ⟨hA, hB, hC, hD⟩
      | some ns =>
          obtain ⟨hns, hmod, hlt⟩ := hD ns hp
          simp only [stepE, hp]
          subst hns
          refine ⟨?_, ?_, rfl, ?_⟩
          · show s.displayed ++ ((filteredOf s).drop s.displayed.length).take FLIGHTS_PER_PAGE
              = (filteredOf s).take
                  (s.displayed ++ ((filteredOf s).drop s.displayed.length).take FLIGHTS_PER_PAGE).length
            rw [List.length_append, List.length_take, List.length_drop]
            set n := s.displayed.length with hn
            rw [hA, take_min_len ((filteredOf s).drop n) FLIGHTS_PER_PAGE, List.length_drop]
            exact (List.take_add _ _ _).symm
          · show (s.displayed ++ ((filteredOf s).drop s.displayed.length).take FLIGHTS_PER_PAGE).length
                % FLIGHTS_PER_PAGE = 0
              ∨ (s.displayed ++ ((filteredOf s).drop s.displayed.length).take FLIGHTS_PER_PAGE).length
                = (filteredOf s).length
            rw [List.length_append, List.length_take, List.length_drop]
            rcases Nat.le_total FLIGHTS_PER_PAGE ((filteredOf s).length - s.displayed.length) with h | h
            · rw [Nat.min_eq_left h]
              exact Or.inl (by rw [Nat.add_mod_right]; exact hmod)
            · rw [Nat.min_eq_right h]; exact Or.inr (by omega)
          · intro ns' hns'; cases hns'
  | select fl => exact ⟨hA, hB, hC, hD⟩

theorem catalogInv_foldl (es : List Event) (s : CatalogState)
    (hinv : catalogInv s) (hsafe : safeFrom s es = true) :
    catalogInv (es.foldl stepE s) := by
  induction es generalizing s with
  | nil => exact hinv
  | cons e es ih =>
      simp only [safeFrom, Bool.and_eq_true, Bool.or_eq_true] at hsafe
      refine ih (stepE s e) (catalogInv_stepE s e hinv ?_) hsafe.2
      intro hf
      rcases hsafe.1 with h | h
      · rw [hf] at h; cases h
      · exact Option.isNone_iff_eq_none.mp h


theorem appendHistory_pairwise (hist : List HistoryItem) (e : HistoryItem)
    (hp : hist.Pairwise (fun a b => a.details ≠ b.details)) :
    (appendHistory hist e).Pairwise (fun a b => a.details ≠ b.details) := by
  unfold appendHistory
  refine List.Pairwise.sublist (List.take_sublist _ _) ?_
  refine List.pairwise_cons.mpr ⟨?_, hp.sublist (List.filter_sublist _)⟩
  intro b hb
  have hbe := (List.mem_filter.mp hb).2
  simp only [Bool.not_eq_true', decide_eq_false_iff_not] at hbe
  exact fun hh => hbe hh.symm

theorem reachableHistory_pairwise {hist : List HistoryItem} (h : ReachableHistory hist) :
    hist.Pairwise (fun a b => a.details ≠ b.details) := by
  induction h with
  | nil => exact List.Pairwise.nil
  | app e _ ih => exact appendHistory_pairwise _ e ih

/-! ### Claim theorems -/

/-- Claim C1 (counterexample): at the one-flight list with airline A, 0 stops,
price 100, the predicate of the claim (malformed or non-positive maximum
price constrains nothing) keeps the flight for maxPrice "abc" and for
maxPrice "0", but the filter of the source returns the empty list in both
cases. -/
theorem c1_counterexample :
    filteredFlights [fA] cAbc ≠ List.filter (fun fl => c1ClaimPred cAbc fl) [fA]
    ∧ filteredFlights [fA] cZero ≠ List.filter (fun fl => c1ClaimPred cZero fl) [fA]
    ∧ filteredFlights [fA] cAbc = []
    ∧ List.filter (fun fl => c1ClaimPred cAbc fl) [fA] = [fA]
    ∧ filteredFlights [fA] cZero = []
    ∧ List.filter (fun fl => c1ClaimPred cZero fl) [fA] = [fA] := by
  decide

/-- Claim C1 (amended): for every flight list and criteria the filtered list
is exactly the flights satisfying the conjunctive predicate in which the
price conjunct is: unconstrained for an empty maximum-price string, and
otherwise `price ≤ Number(maxPrice)` — a malformed non-empty maximum price
(NaN) excludes every flight, and a parsed maximum applies whether or not it
is positive.  The computation is total. -/
theorem c1_amended (fls : List Flight) (c : Filters) :
    filteredFlights fls c = fls.filter (fun fl => decide (c1AmendedPred c fl)) :=
  List.filter_congr (fun fl _ => flightPasses_eq_amended c fl)

/-- Claim C2 (counterexample): after a load-more trigger, a filter change to
airline B while the append is pending, and the pending timer firing, the
displayed list is not a prefix of the filtered list (and its length is
neither a page multiple nor the filtered length). -/
theorem c2_counterexample :
    ¬ (cexState.displayed = (filteredOf cexState).take cexState.displayed.length
      ∧ (cexState.displayed.length % FLIGHTS_PER_PAGE = 0
          ∨ cexState.displayed.length = (filteredOf cexState).length)) := by
  decide

/-- Claim C2 (amended): along every run in which filters only change while no
load-more append is pending, the displayed list is the take-prefix of the
filtered list with length a multiple of the page size (10) except on the
final page; and a filter change always resets the displayed list to the
first page (at most 10 items) of the newly filtered list. -/
theorem c2_pagination (fl : List Flight) (es : List Event) (f : Filters)
    (hsafe : safeFrom (initState fl) es = true) :
    (run fl es).displayed = (filteredOf (run fl es)).take (run fl es).displayed.length
    ∧ ((run fl es).displayed.length % FLIGHTS_PER_PAGE = 0
        ∨ (run fl es).displayed.length = (filteredOf (run fl es)).length)
    ∧ (run fl (es ++ [Event.setFilter f])).displayed
        = (filteredFlights fl f).take FLIGHTS_PER_PAGE
    ∧ (run fl (es ++ [Event.setFilter f])).displayed.length ≤ FLIGHTS_PER_PAGE := by
  obtain ⟨hA, hB, _, _⟩ := catalogInv_foldl es (initState fl) (catalogInv_initState fl) hsafe
  refine ⟨hA, hB, ?_, ?_⟩
  · show (List.foldl stepE (initState fl) (es ++ [Event.setFilter f])).displayed = _
    rw [List.foldl_append]
    show (filteredFlights (List.foldl stepE (initState fl) es).flights f).take FLIGHTS_PER_PAGE = _
    rw [foldl_flights]
    rfl
  · show (List.foldl stepE (initState fl) (es ++ [Event.setFilter f])).displayed.length ≤ _
    rw [List.foldl_append]
    show ((filteredFlights (List.foldl stepE (initState fl) es).flights f).take
        FLIGHTS_PER_PAGE).length ≤ FLIGHTS_PER_PAGE
    exact List.length_take_le _ _

theorem c2_witness :
    safeFrom (initState flights11) [Event.trigger, Event.fire] = true
    ∧ ((run flights11 [Event.trigger, Event.fire]).displayed
        = (filteredOf (run flights11 [Event.trigger, Event.fire])).take
            (run flights11 [Event.trigger, Event.fire]).displayed.length
      ∧ ((run flights11 [Event.trigger, Event.fire]).displayed.length % FLIGHTS_PER_PAGE = 0
          ∨ (run flights11 [Event.trigger, Event.fire]).displayed.length
            = (filteredOf (run flights11 [Event.trigger, Event.fire])).length)
      ∧ (run flights11 ([Event.trigger, Event.fire] ++ [Event.setFilter onlyB])).displayed
          = (filteredFlights flights11 onlyB).take FLIGHTS_PER_PAGE
      ∧ (run flights11 ([Event.trigger, Event.fire] ++ [Event.setFilter onlyB])).displayed.length
          ≤ FLIGHTS_PER_PAGE) :=
  ⟨by decide, c2_pagination flights11 [Event.trigger, Event.fire] onlyB (by decide)⟩

/-- Claim C3 (counterexample): with eleven flights (one airline B, ten A), a
load-more trigger captures the eleventh flight; changing the filter to
airline B resets the display, but when the never-cancelled timer fires the
stale flight from the previously filtered list is appended: the displayed
list is the B flight followed by an A flight, the A flight is not in the new
filtered list, and the displayed list is not the first page of it. -/
theorem c3_counterexample :
    cexState.displayed = [fB, fA]
    ∧ fA ∉ filteredOf cexState
    ∧ cexState.displayed ≠ (filteredOf cexState).take FLIGHTS_PER_PAGE := by
  decide

/-- Claim C3 (amended): a pending load-more append is never cancelled.  A
flight selection leaves the pending capture and the displayed list
untouched; a filter change resets the displayed list to the first page of
the newly filtered list, but when the pending delay then fires, the page
captured from the previously filtered list is appended to it and the
loading flag clears. -/
theorem c3_amended (s : CatalogState) (f : Filters) (fl : Flight) (ns : List Flight)
    (h : s.pending = some ns) :
    (stepE (stepE s (Event.setFilter f)) Event.fire).displayed
      = (filteredFlights s.flights f).take FLIGHTS_PER_PAGE ++ ns
    ∧ (stepE (stepE s (Event.setFilter f)) Event.fire).pending = none
    ∧ (stepE (stepE s (Event.setFilter f)) Event.fire).isLoadingMore = false
    ∧ (stepE s (Event.select fl)).pending = s.pending
    ∧ (stepE s (Event.select fl)).displayed = s.displayed := by
  simp [stepE, h]

theorem c3_witness :
    (run flights11 [Event.trigger]).pending = some [fA]
    ∧ ((stepE (stepE (run flights11 [Event.trigger]) (Event.setFilter onlyB)) Event.fire).displayed
        = (filteredFlights (run flights11 [Event.trigger]).flights onlyB).take FLIGHTS_PER_PAGE
          ++ [fA]
      ∧ (stepE (stepE (run flights11 [Event.trigger]) (Event.setFilter onlyB)) Event.fire).pending
        = none
      ∧ (stepE (stepE (run flights11 [Event.trigger]) (Event.setFilter onlyB))
          Event.fire).isLoadingMore = false
      ∧ (stepE (run flights11 [Event.trigger]) (Event.select fA)).pending
        = (run flights11 [Event.trigger]).pending
      ∧ (stepE (run flights11 [Event.trigger]) (Event.select fA)).displayed
        = (run flights11 [Event.trigger]).displayed) :=
  ⟨by decide, c3_amended (run flights11 [Event.trigger]) onlyB fA [fA] (by decide)⟩

/-- Claim C4 (counterexample): a late image result for a plan that has been
replaced by `planB` is applied to destination slot 0 of `planB` — the source
checks only for a null plan, not for plan identity. -/
theorem c4_counterexample :
    applyImageResult (some planB) 0 (some "IMG") ≠ some planB
    ∧ (applyImageResult (some planB) 0 (some "IMG")).map
        (fun q => q.itinerary.map (fun d => d.imageUrl))
      = some [ImageUrl.str "data:image/jpeg;base64,IMG"] := by
  decide

/-- Claim C4 (amended): a late-arriving image result is discarded only when
the current plan is null (cleared); when any plan is present — including a
replacement of the plan the request was issued for — the result (success or
failure) is applied to the destination slot of that plan at the index of the
request, all other slots and fields unchanged. -/
theorem c4_amended (p : Plan) (i : ℕ) (res : Option String)
    (h : i < p.itinerary.length) :
    applyImageResult none i res = none
    ∧ applyImageResult (some p) i res
        = some { p with itinerary :=
            p.itinerary.take i
              ++ [{ p.itinerary.get ⟨i, h⟩ with imageUrl := resultUrl res }]
              ++ p.itinerary.drop (i + 1) } := by
  refine ⟨rfl, ?_⟩
  simp only [applyImageResult]
  rw [updAt_eq _ _ _ h]

theorem c4_witness :
    0 < planB.itinerary.length
    ∧ (applyImageResult none 0 (some "X") = none
      ∧ applyImageResult (some planB) 0 (some "X")
          = some { planB with itinerary :=
              planB.itinerary.take 0
                ++ [{ planB.itinerary.get ⟨0, by decide⟩ with imageUrl := resultUrl (some "X") }]
                ++ planB.itinerary.drop 1 }) :=
  ⟨by decide, c4_amended planB 0 (some "X") (by decide)⟩

/-- Claim C5 (counterexample): assembly of a payload with one destination
yields an itinerary whose image state is the absent marker (the imageUrl key
is never written by assembly), not the pending marker "loading". -/
theorem c5_counterexample :
    (assemblePlan raw0).itinerary.map (fun d => d.imageUrl) = [ImageUrl.undef]
    ∧ ImageUrl.undef ≠ ImageUrl.str "loading"
    ∧ ImageUrl.undef ≠ ImageUrl.nullv := by
  decide

/-- Claim C5 (amended): assembly leaves the image state of every destination
absent; it is the initialization step of the image-fill controller, invoked
right after assembly, that sets the image state of every destination to the
pending marker before any request settles; and only the image-fill
controller moves image states afterwards — a settled request writes either
a resolved data URL or the failed (null) marker, never the absent marker,
while the other plan mutators (the checklist toggle, the packing-list
toggle, and the load-effect normalization) leave the image state of every
destination unchanged. -/
theorem c5_amended (raw : RawPayload) (p : Plan) (sv : Bool) (i : Int)
    (ci ii : ℕ) (b : String) :
    (assemblePlan raw).itinerary.map (fun d => d.imageUrl)
      = List.replicate raw.itinerary.length ImageUrl.undef
    ∧ (markItineraryLoading (assemblePlan raw)).itinerary.map (fun d => d.imageUrl)
      = List.replicate raw.itinerary.length (ImageUrl.str "loading")
    ∧ resultUrl (some b) = ImageUrl.str ("data:image/jpeg;base64," ++ b)
    ∧ resultUrl none = ImageUrl.nullv
    ∧ resultUrl (some b) ≠ ImageUrl.undef
    ∧ resultUrl none ≠ ImageUrl.undef
    ∧ (handleChecklistToggle ⟨some p, sv⟩ i).plan.map
        (fun q => q.itinerary.map (fun d => d.imageUrl))
      = some (p.itinerary.map (fun d => d.imageUrl))
    ∧ (handlePackingListToggle ⟨some p, sv⟩ ci ii).plan.map
        (fun q => q.itinerary.map (fun d => d.imageUrl))
      = some (p.itinerary.map (fun d => d.imageUrl))
    ∧ (restorePlan p).itinerary.map (fun d => d.imageUrl)
      = p.itinerary.map (fun d => d.imageUrl) := by
  refine ⟨?_, ?_, rfl, rfl, ?_, ?_, rfl, rfl, ?_⟩
  · show (raw.itinerary.map toDestination).map (fun d => d.imageUrl) = _
    rw [List.map_map]
    exact List.map_const' _ _
  · show ((raw.itinerary.map toDestination).map
        (fun d => { d with imageUrl := ImageUrl.str "loading" })).map (fun d => d.imageUrl) = _
    rw [List.map_map, List.map_map]
    exact List.map_const' _ _
  · simp [resultUrl]
  · simp [resultUrl]
  · rw [restorePlan_eq]

/-- Claim C6: the source evaluated at the failing input of the bug.  With the
stop-count bucket "2" (rendered in the UI as the option labeled "2+
Paradas"), a flight with 3 stops — which has at least 2 stops — is filtered
out, while a flight with exactly 2 stops passes: the filter is an exact
string match, not the "2 or more" semantics the UI label promises. -/
theorem c6_code_evaluation :
    filteredFlights [flight3] stops2plus = []
    ∧ filteredFlights [flight2] stops2plus = [flight2]
    ∧ 2 ≤ flight3.stops := by
  decide

/-- Claim C7: for an in-range index, the checklist toggle flips exactly item
i (all other items and all other plan fields verbatim, expressed by the
take/flip/drop decomposition), clears the saved flag, and a second toggle
restores the original plan exactly. -/
theorem c7_toggle (p : Plan) (sv : Bool) (i : ℕ) (h : i < p.checklist.length) :
    handleChecklistToggle ⟨some p, sv⟩ (i : Int)
      = ⟨some { p with checklist :=
            p.checklist.take i ++ [flipItem (p.checklist.get ⟨i, h⟩)]
              ++ p.checklist.drop (i + 1) }, false⟩
    ∧ handleChecklistToggle (handleChecklistToggle ⟨some p, sv⟩ (i : Int)) (i : Int)
      = ⟨some p, false⟩ := by
  constructor
  · simp only [handleChecklistToggle]
    rw [toggleChecklist_natCast, updAt_eq _ _ _ h]
  · simp only [handleChecklistToggle]
    rw [toggleChecklist_involutive]

theorem c7_witness :
    0 < planC.checklist.length
    ∧ (handleChecklistToggle ⟨some planC, true⟩ ((0 : ℕ) : Int)
        = ⟨some { planC with checklist :=
              planC.checklist.take 0 ++ [flipItem (planC.checklist.get ⟨0, by decide⟩)]
                ++ planC.checklist.drop 1 }, false⟩
      ∧ handleChecklistToggle
          (handleChecklistToggle ⟨some planC, true⟩ ((0 : ℕ) : Int)) ((0 : ℕ) : Int)
        = ⟨some planC, false⟩) :=
  ⟨by decide, c7_toggle planC true 0 (by decide)⟩

/-- Claim C8: appending to any reachable history ring yields at most 5
entries, the new entry at the front, and pairwise structurally-distinct trip
parameters (any prior entry equal to the new one was evicted by the
filter before prepending). -/
theorem c8_append (hist : List HistoryItem) (e : HistoryItem)
    (h : ReachableHistory hist) :
    (appendHistory hist e).length ≤ 5
    ∧ (appendHistory hist e).head? = some e
    ∧ (appendHistory hist e).Pairwise (fun a b => a.details ≠ b.details) :=
  ⟨List.length_take_le _ _, rfl,
    appendHistory_pairwise hist e (reachableHistory_pairwise h)⟩

theorem c8_witness :
    ReachableHistory ([] : List HistoryItem)
    ∧ ((appendHistory [] histE).length ≤ 5
      ∧ (appendHistory [] histE).head? = some histE
      ∧ (appendHistory [] histE).Pairwise (fun a b => a.details ≠ b.details)) :=
  ⟨ReachableHistory.nil, c8_append [] histE ReachableHistory.nil⟩

/-- Claim C9: saving a plan, trip details and selection and then loading with
no intervening mutation restores an equal plan (the `completed || false` and
`packed || false` normalizations are the identity on booleans), equal trip
details, and an equal selection (`savedFlight || null` is the identity on a
present-or-null value). -/
theorem c9_round_trip (p : Plan) (td : TripDetails) (sel : Option Flight) :
    loadSavedData (handleSavePlan (some p) td sel) = some (p, td, sel) := by
  simp [loadSavedData, handleSavePlan, restorePlan_eq]

/-- Claim C10: for any integer index outside the checklist bounds (negative
or past the end) the toggle handler is total and returns the plan completely
unchanged; its only observable effect is clearing the saved flag. -/
theorem c10_out_of_range (p : Plan) (sv : Bool) (i : Int)
    (h : i < 0 ∨ (p.checklist.length : Int) ≤ i) :
    handleChecklistToggle ⟨some p, sv⟩ i = ⟨some p, false⟩ := by
  simp only [handleChecklistToggle]
  rw [toggleChecklist_out p.checklist i h]

theorem c10_witness :
    ((-1 : Int) < 0 ∨ ((planC.checklist.length : ℕ) : Int) ≤ -1)
    ∧ handleChecklistToggle ⟨some planC, true⟩ (-1) = ⟨some planC, false⟩ :=
  ⟨Or.inl (by decide), c10_out_of_range planC true (-1) (Or.inl (by decide))⟩

end TravelPlanner
